import Mathlib

/-
  Verification of the ginevra preprocessor (csb6/ginevra).

  Two source variants are modelled:
  * `Better`  — src/better.cpp   (Scanner::nextToken state machine + main driver)
  * `Ginevra` — src/ginevra++.cpp (Scanner with buffered currChar, defineSymbol, main)

  Streams are modelled as `List Char`; the C++ `EOF` sentinel is `Option.none`
  for the current character.  `std::cout` / `std::cerr` are accumulated
  `List Char` channels.  `exit(1)` becomes an explicit result constructor.
  Loops are given explicit fuel (`Nat`); `none` means the fuel ran out
  (which in the faithful model only happens on genuinely divergent C++ runs,
  e.g. better.cpp's `State::Other` loop at end-of-file).
-/

namespace Better

/-- The `State` enumeration of better.cpp (State::String is `Str` here). -/
inductive LexState where
  | Start | Identifier | InIdentifier | InComment | Str
  | InSingleQuote | InDoubleQuote | EoF | Bad | Other
deriving DecidableEq, Repr

/-- Result of one `Scanner::nextToken` call of better.cpp: the token state and
text, the remaining stream (after the one-character putback, if any), whether
the stream's failbit is set, and the stderr text emitted while scanning. -/
structure Tok where
  state  : LexState
  text   : List Char
  rest   : List Char
  failed : Bool
  err    : List Char
deriving DecidableEq, Repr

/-- Scanner outcome: a token, or `exit(1)` with the accumulated stderr
(the two `Fatal error: Unexpected end of file` paths of better.cpp). -/
inductive ScanResult where
  | ok (t : Tok)
  | fatal (err : List Char)
deriving DecidableEq, Repr

/-- The while-loop of better.cpp `Scanner::nextToken` (lines 56-197), one
recursive call per loop iteration.  `cur` is `currChar` (`none` = EOF),
`s` the unread stream, `text` = `tokenText`.  The bottom-of-loop
`currChar = m_file.get()` is fused into each continuing branch.
`none` = fuel exhausted; with the fuel used by `nextToken` this only
happens for the `State::Other`-at-EOF branch, where the C++ loops forever
appending `(char)EOF` to `tokenText`. -/
def go : Nat → Option Char → LexState → List Char → List Char → List Char → Bool →
    Option ScanResult
  | 0, _, _, _, _, _, _ => none
  | fuel+1, cur, st, s, text, err, failed =>
    match st, cur with
    | .Start, some c =>
      if c = ' ' ∨ c = '\t' then
        go fuel s.head? .Start s.tail text err (failed || s.isEmpty)
      else if c = '#' ∨ c.isAlpha then
        go fuel s.head? .InIdentifier s.tail (text ++ [c]) err (failed || s.isEmpty)
      else if c = '\'' then
        go fuel s.head? .InSingleQuote s.tail (text ++ [c]) err (failed || s.isEmpty)
      else if c = '"' then
        go fuel s.head? .InDoubleQuote s.tail (text ++ [c]) err (failed || s.isEmpty)
      else if c = '/' ∧ s.head? = some '*' then
        -- m_file.ignore(1) discards the '*'
        go fuel s.tail.head? .InComment s.tail.tail text err (failed || s.tail.isEmpty)
      else if c = '\n' then
        go fuel s.head? .Start s.tail (text ++ [c]) err (failed || s.isEmpty)
      else
        go fuel s.head? .Other s.tail (text ++ [c]) err (failed || s.isEmpty)
    | .Start, none => some (.ok ⟨.EoF, text, s, failed, err⟩)
    | .InIdentifier, some c =>
      if c.isAlpha ∨ c = '.' then
        go fuel s.head? .InIdentifier s.tail (text ++ [c]) err (failed || s.isEmpty)
      else
        -- m_file.putback(currChar)
        some (.ok ⟨.Identifier, text, c :: s, failed, err⟩)
    | .InIdentifier, none => some (.ok ⟨.Identifier, text, s, failed, err⟩)
    | .InSingleQuote, some c =>
      if c = '\'' then some (.ok ⟨.Str, text ++ [c], s, failed, err⟩)
      else if c = '\\' ∧ s.head? = some '\'' then
        -- better.cpp line 119: `tokenText += currChar + m_file.get();`
        -- char + int addition: appends the single character '\\' + '\'' = 131.
        go fuel s.tail.head? .InSingleQuote s.tail.tail (text ++ [Char.ofNat 131]) err
          (failed || s.tail.isEmpty)
      else if c = '\n' then
        -- `currChar = m_file.get()` discards one char, then done
        some (.ok ⟨.Bad, text, s.tail, failed || s.isEmpty,
          err ++ ("\nError: Malformed string\n".data)⟩)
      else
        go fuel s.head? .InSingleQuote s.tail (text ++ [c]) err (failed || s.isEmpty)
    | .InSingleQuote, none =>
      some (.ok ⟨.Bad, text, s, failed, err ++ ("\nError: Unexpected end of file\n".data)⟩)
    | .InDoubleQuote, some c =>
      if c = '"' then some (.ok ⟨.Str, text ++ [c], s, failed, err⟩)
      else if c = '\\' ∧ s.head? = some '"' then
        -- `m_file.get();` only: both characters contribute nothing
        go fuel s.tail.head? .InDoubleQuote s.tail.tail text err (failed || s.tail.isEmpty)
      else if c = '\n' then
        some (.ok ⟨.Bad, text ++ [c], s, failed, err ++ ("\nError: Malformed string\n".data)⟩)
      else
        go fuel s.head? .InDoubleQuote s.tail (text ++ [c]) err (failed || s.isEmpty)
    | .InDoubleQuote, none =>
      some (.fatal (err ++ ("\nFatal error: Unexpected end of file\n".data)))
    | .InComment, some c =>
      -- better.cpp line 161: `if(currChar == '*' || m_file.peek() == '/')`
      -- (note `||`, as in the source).
      if c = '*' ∨ s.head? = some '/' then
        let s1 := s.tail         -- m_file.ignore(1)
        let s2 := if s1.head? = some '\n' then s1.tail else s1
        go fuel s2.head? .Start s2.tail text err (failed || s.isEmpty || s2.isEmpty)
      else
        go fuel s.head? .InComment s.tail text err (failed || s.isEmpty)
    | .InComment, none =>
      some (.fatal (err ++ ("\nFatal error: Unexpected end of file\n".data)))
    | .Other, some c =>
      if c = ' ' ∨ c = '\n' then
        -- done = true, and then `tokenText += currChar` still executes
        some (.ok ⟨.Other, text ++ [c], s, failed, err⟩)
      else if c = '/' ∧ s.head? = some '*' then
        go fuel s.tail.head? .InComment s.tail.tail text err (failed || s.tail.isEmpty)
      else
        go fuel s.head? .Other s.tail (text ++ [c]) err (failed || s.isEmpty)
    | .Other, none =>
      -- the C++ loops forever here, appending (char)EOF each iteration
      go fuel none .Other s (text ++ [Char.ofNat 255]) err failed
    | _, _ => some (.ok ⟨.Bad, text, s, failed, err⟩)   -- the `default:` case

/-- `Scanner::nextToken` of better.cpp: initial `currChar = m_file.get()`,
then the loop, with fuel ample for every terminating run. -/
def nextToken (s : List Char) : Option ScanResult :=
  go (2 * s.length + 4) s.head? .Start s.tail [] [] s.isEmpty

/-- `Scanner::nextLine` of better.cpp (std::getline): returns the line read,
the remaining stream, and the failbit.  On a failed stream or at EOF with
nothing to read, getline extracts nothing and sets failbit. -/
def nextLine (failed : Bool) (s : List Char) : List Char × List Char × Bool :=
  if failed then ([], s, true)
  else if s.isEmpty then ([], s, true)
  else
    let pre := s.takeWhile (fun c => c ≠ '\n')
    match s.drop pre.length with
    | [] => (pre, [], false)
    | _ :: r => (pre, r, false)

/-- Lookup in the driver's `std::map<std::string,std::string>` symbol table,
modelled as an association list (only key lookup is observable). -/
def lookupT (k : List Char) : List (List Char × List Char) → Option (List Char)
  | [] => none
  | (k', v) :: r => if k = k' then some v else lookupT k r

/-- `symbolTable[symbol] = value`: insert or overwrite. -/
def insertT (k v : List Char) : List (List Char × List Char) →
    List (List Char × List Char)
  | [] => [(k, v)]
  | (k', v') :: r => if k = k' then (k, v) :: r else (k', v') :: insertT k v r

/-- Driver state of better.cpp `main`: unread stream, stream failbit,
symbol table, and the two output channels. -/
structure DState where
  stream : List Char
  failed : Bool
  table  : List (List Char × List Char)
  out    : List Char
  err    : List Char
deriving DecidableEq, Repr

/-- Final result of a run: exit code, stdout, stderr, final symbol table. -/
inductive RunResult where
  | exit (code : Nat) (out err : List Char) (table : List (List Char × List Char))
deriving DecidableEq, Repr

inductive StepRes where
  | done (r : RunResult)
  | next (ds : DState)
  | stuck
deriving DecidableEq, Repr

/-- One iteration of the `while(scanner.hasNext())` loop of better.cpp `main`
(lines 213-242), including the loop-condition test. -/
def step (ds : DState) : StepRes :=
  if ds.failed then .done (.exit 0 ds.out ds.err ds.table)
  else
    match nextToken ds.stream with
    | none => .stuck
    | some (.fatal e) => .done (.exit 1 ds.out (ds.err ++ e) ds.table)
    | some (.ok t) =>
      let ds1 : DState := ⟨t.rest, t.failed, ds.table, ds.out, ds.err ++ t.err⟩
      if t.text = ("#define".data) then
        match nextToken ds1.stream with
        | none => .stuck
        | some (.fatal e) => .done (.exit 1 ds1.out (ds1.err ++ e) ds1.table)
        | some (.ok t2) =>
          let str2 := t2.rest
          let f2 := t2.failed
          let er2 := ds1.err ++ t2.err
          -- `const std::string value(scanner.nextLine());` runs before the test
          let v := nextLine f2 str2
          if t2.state ≠ .Identifier then
            .next ⟨v.2.1, v.2.2, ds1.table,
              ds1.out ++ t2.text ++ [' '] ++ v.1 ++ ['\n'],
              er2 ++ ("\nError: expected identifier after #define\n".data)⟩
          else
            .next ⟨v.2.1, v.2.2, insertT t2.text v.1 ds1.table,
              ds1.out ++ (if (lookupT t2.text ds1.table).isSome then
                ("\nWarning: symbol ".data) ++ t2.text ++ (" redefined\n".data) else []),
              er2⟩
      else if t.state = .Identifier then
        .next ⟨ds1.stream, ds1.failed, ds1.table,
          ds1.out ++ ((lookupT t.text ds1.table).getD t.text) ++ [' '], ds1.err⟩
      else if t.state ≠ .Bad then
        .next ⟨ds1.stream, ds1.failed, ds1.table, ds1.out ++ t.text, ds1.err⟩
      else
        .next ⟨ds1.stream, ds1.failed, ds1.table, ds1.out,
          ds1.err ++ ("Error: bad token: ".data) ++ t.text ++ ("\n".data)⟩

/-- The driver loop, one `step` per unit of fuel. -/
def loop : Nat → DState → Option RunResult
  | 0, _ => none
  | n+1, ds =>
    match step ds with
    | .done r => some r
    | .next ds' => loop n ds'
    | .stuck => none

def initState (input : List Char) : DState := ⟨input, false, [], [], []⟩

/-- better.cpp `main` after the argv/extension checks: the Scanner
constructor exits with code 1, silently, when `m_file.peek() == EOF`
(lines 42-44); otherwise the token loop runs and `main` returns 0. -/
def runMain (input : List Char) : Option RunResult :=
  if input.isEmpty then some (.exit 1 [] [] [])
  else loop (input.length + 2) (initState input)

/-- The file-extension check of better.cpp / ginevra++.cpp `main`
(better.cpp lines 206-210):
`path.size() < 2 || (path.substr(path.size()-2) != ".h" && path.substr(path.size()-4) != ".cpp")`.
For `2 ≤ size < 4` with a non-".h" suffix, `path.size()-4` underflows in
`size_t` and `substr` throws `std::out_of_range` (uncaught). -/
inductive ExtCheck where
  | pass | invalidExit | oobThrow
deriving DecidableEq, Repr

def checkExtension (path : List Char) : ExtCheck :=
  if path.length < 2 then .invalidExit
  else if path.drop (path.length - 2) = (".h".data) then .pass
  else if path.length < 4 then .oobThrow
  else if path.drop (path.length - 4) = (".cpp".data) then .pass
  else .invalidExit

end Better

namespace Ginevra

/-- Scanner state of ginevra++.cpp: the unread stream, the buffered
`currChar` member (`none` = EOF), `lineNum` and `currColumn`. -/
structure GScan where
  stream     : List Char
  cur        : Option Char
  lineNum    : Nat
  currColumn : Nat
deriving DecidableEq, Repr

/-- `Scanner::getCh` of ginevra++.cpp (lines 54-61): if the peeked character
is a newline, `lineNum` is incremented and `currColumn` reset to 1 (it is
never incremented anywhere); then one character is extracted. -/
def getCh (g : GScan) : GScan :=
  let g1 := if g.stream.head? = some '\n' then
    { g with lineNum := g.lineNum + 1, currColumn := 1 } else g
  { g1 with cur := g.stream.head?, stream := g.stream.tail }

/-- The `State` enumeration of ginevra++.cpp. -/
inductive GLex where
  | Start | Identifier | InIdentifier | InComment | Str
  | InSingleQuote | InDoubleQuote | EoF | EoL | Other | Bad
deriving DecidableEq, Repr

/-- The token codes returned by ginevra++.cpp `Scanner::nextToken`:
`Token::Define/String/Identifier/EoF`, or a plain character code. -/
inductive GTok where
  | define | str | ident | eof | ch (c : Char)
deriving DecidableEq, Repr

/-- Scanner outcome for ginevra++.cpp: a token code together with the final
`currText`, scanner state and stderr output, or `exit(1)` (unterminated
comment at EOF, line 151). -/
inductive GRes where
  | tok (t : GTok) (text : List Char) (g : GScan) (err : List Char)
  | fatal (err : List Char)
deriving DecidableEq, Repr

/-- The while-loop of ginevra++.cpp `Scanner::nextToken` (lines 70-194) fused
with its trailing `switch` on the final state.  The bottom-of-loop
`currChar = getCh()` is applied in each continuing branch.  The `Bad` final
state prints `malformed token <currText>` and retries (`return nextToken()`),
modelled by continuing in `Start` with the text reset. -/
def gGo : Nat → GLex → GScan → List Char → List Char → Option GRes
  | 0, _, _, _, _ => none
  | fuel+1, st, g, err, text =>
    match st with
    | .Start =>
      match g.cur with
      | none => some (.tok .eof text g err)
      | some c =>
        if c = ' ' ∨ c = '\t' then
          gGo fuel .Start (getCh g) err text
        else if c = '\n' then
          -- EoL is final; `return currText[0]`
          some (.tok (.ch '\n') (text ++ ['\n']) (getCh g) err)
        else if c = '\'' then
          gGo fuel .InSingleQuote (getCh g) err (text ++ [c])
        else if c = '"' then
          gGo fuel .InDoubleQuote (getCh g) err (text ++ [c])
        else if c.isAlpha then
          gGo fuel .InIdentifier (getCh g) err (text ++ [c])
        else if c = '/' ∧ g.stream.head? = some '*' then
          gGo fuel .InComment (getCh (getCh g)) err text
        else if c = '\\' ∧ g.stream.head? = some '\n' then
          gGo fuel .Start (getCh (getCh g)) err text
        else
          -- Other is final; `return currText[0]`
          some (.tok (.ch c) (text ++ [c]) (getCh g) err)
    | .InSingleQuote =>
      match g.cur with
      | some c =>
        if c = '\'' then
          some (.tok .str (text ++ [c]) (getCh g) err)
        else if c = '\\' ∧ g.stream.head? = some '\'' then
          gGo fuel .InSingleQuote (getCh (getCh g)) err (text ++ ['\''])
        else if c = '\\' ∧ g.stream.head? = some '\n' then
          gGo fuel .InSingleQuote (getCh (getCh g)) err text
        else if c = '\n' then
          -- Bad: report and retry with currChar retained
          gGo fuel .Start g (err ++ ("malformed token ".data) ++ text) []
        else
          gGo fuel .InSingleQuote (getCh g) err (text ++ [c])
      | none =>
        gGo fuel .Start g (err ++ ("malformed token ".data) ++ text) []
    | .InDoubleQuote =>
      match g.cur with
      | some c =>
        if c = '"' then
          some (.tok .str (text ++ [c]) (getCh g) err)
        else if c = '\\' ∧ g.stream.head? = some '"' then
          -- ginevra++.cpp line 134 appends '\'' here (as in the source)
          gGo fuel .InDoubleQuote (getCh (getCh g)) err (text ++ ['\''])
        else if c = '\\' ∧ g.stream.head? = some '\n' then
          gGo fuel .InDoubleQuote (getCh (getCh g)) err text
        else if c = '\n' then
          gGo fuel .Start g (err ++ ("malformed token ".data) ++ text) []
        else
          gGo fuel .InDoubleQuote (getCh g) err (text ++ [c])
      | none =>
        gGo fuel .Start g (err ++ ("malformed token ".data) ++ text) []
    | .InComment =>
      match g.cur with
      | some c =>
        if c = '*' ∧ g.stream.head? = some '/' then
          gGo fuel .Start (getCh (getCh g)) err text
        else
          gGo fuel .InComment (getCh g) err text
      | none =>
        some (.fatal (err ++ ("Error: Unexpected end of input".data)))
    | .InIdentifier =>
      match g.cur with
      | some c =>
        if c.isAlphanum then
          gGo fuel .InIdentifier (getCh g) err (text ++ [c])
        else
          some (.tok (if text = ("define".data) then .define else .ident) text g err)
      | none =>
        some (.tok (if text = ("define".data) then .define else .ident) text g err)
    | _ =>
      -- unreachable in-loop states (`default: break;` would spin)
      gGo fuel st (getCh g) err text

/-- `Scanner::nextToken` of ginevra++.cpp, with fuel ample for every
terminating run. -/
def gNextToken (g : GScan) : Option GRes :=
  gGo (2 * g.stream.length + 8) .Start g [] []

/-- `Scanner::nextLine` of ginevra++.cpp: getline from the stream position;
the buffered `currChar` is unaffected (and stays stale). -/
def gNextLine (g : GScan) : List Char × GScan :=
  let pre := g.stream.takeWhile (fun c => c ≠ '\n')
  match g.stream.drop pre.length with
  | [] => (pre, { g with stream := [] })
  | _ :: r => (pre, { g with stream := r })

/-- `defineSymbol` of ginevra++.cpp (lines 201-225): accumulates the value by
re-tokenizing the rest of the line; identifier tokens are looked up in the
table and replaced by their mapped value when bound; a newline token installs
`key -> value`; EOF mid-definition is fatal (exit 1). -/
def gDefine : Nat → List (List Char × List Char) → List Char → List Char →
    GScan → List Char →
    Option (Sum (List Char) (List (List Char × List Char) × GScan × List Char))
  | 0, _, _, _, _, _ => none
  | fuel+1, table, key, value, g, err =>
    match gNextToken g with
    | none => none
    | some (.fatal e) => some (.inl (err ++ e))
    | some (.tok t text g' err1) =>
      let err := err ++ err1
      match t with
      | .eof => some (.inl (err ++ ("error: premature end of file\n".data)))
      | .ident =>
        gDefine fuel table key (value ++ ((Better.lookupT text table).getD text)) g' err
      | .ch c =>
        if c = '\n' then some (.inr (Better.insertT key value table, g', err))
        else gDefine fuel table key (value ++ text) g' err
      | _ => gDefine fuel table key (value ++ text) g' err

/-- Driver state of ginevra++.cpp `main`. -/
structure GDState where
  g     : GScan
  table : List (List Char × List Char)
  out   : List Char
  err   : List Char
deriving DecidableEq, Repr

inductive GStepRes where
  | done (r : Better.RunResult)
  | next (ds : GDState)
  | stuck
deriving DecidableEq, Repr

/-- One iteration of the token loop of ginevra++.cpp `main` (lines 242-274),
including the `!= Token::EoF` loop condition. -/
def gStep (ds : GDState) : GStepRes :=
  match gNextToken ds.g with
  | none => .stuck
  | some (.fatal e) => .done (.exit 1 ds.out (ds.err ++ e) ds.table)
  | some (.tok t text g' err1) =>
    let err := ds.err ++ err1
    if t = .eof then .done (.exit 0 ds.out err ds.table)
    else if g'.currColumn = 1 ∧ t = .ch '#' then
      match gNextToken g' with
      | none => .stuck
      | some (.fatal e) => .done (.exit 1 ds.out (err ++ e) ds.table)
      | some (.tok t2 text2 g2 err2) =>
        let err := err ++ err2
        if t2 = .define then
          match gNextToken g2 with
          | none => .stuck
          | some (.fatal e) => .done (.exit 1 ds.out (err ++ e) ds.table)
          | some (.tok t3 text3 g3 err3) =>
            let err := err ++ err3
            if t3 = .eof then
              .done (.exit 1 ds.out (err ++ ("error: premature end of file\n".data)) ds.table)
            else if t3 = .ch '\n' then
              .next ⟨g3, ds.table, ds.out, err ++ ("error: premature end of #define\n".data)⟩
            else if t3 = .ident then
              let err := err ++ (if (Better.lookupT text3 ds.table).isSome then
                ("error: multiple symbol definitions\n".data) else [])
              match gDefine (2 * g3.stream.length + 8) ds.table text3 [] g3 [] with
              | none => .stuck
              | some (.inl e) => .done (.exit 1 ds.out (err ++ e) ds.table)
              | some (.inr (table', g4, err4)) =>
                .next ⟨g4, table', ds.out, err ++ err4⟩
            else
              .next ⟨g3, ds.table, ds.out,
                err ++ ("error: identifier expected after #define\n".data)⟩
        else
          let ln := gNextLine g2
          .next ⟨ln.2, ds.table,
            ds.out ++ ['#'] ++ text2 ++ [' '] ++ ln.1 ++ ['\n'],
            err ++ ("warning: # in column 1, but not a #define\n".data)⟩
    else if t = .ident then
      .next ⟨g', ds.table,
        ds.out ++ ((Better.lookupT text ds.table).getD text) ++ [' '], err⟩
    else if t = .ch '\n' then
      .next ⟨g', ds.table, ds.out ++ ['\n'], err⟩
    else
      .next ⟨g', ds.table, ds.out ++ text, err⟩

def gLoop : Nat → GDState → Option Better.RunResult
  | 0, _ => none
  | n+1, ds =>
    match gStep ds with
    | .done r => some r
    | .next ds' => gLoop n ds'
    | .stuck => none

/-- ginevra++.cpp `main` after the argv/extension checks: the Scanner
constructor exits with code 1, silently, on an empty file (lines 46-48)
and otherwise pre-loads `currChar = getCh()`; then the token loop runs. -/
def gRunMain (input : List Char) : Option Better.RunResult :=
  if input.isEmpty then some (.exit 1 [] [] [])
  else gLoop (input.length + 4) ⟨getCh ⟨input, none, 1, 1⟩, [], [], []⟩

end Ginevra

/-- `startsSeq n h`: `n` is a leading block of `h`. -/
def startsSeq : List Char → List Char → Bool
  | [], _ => true
  | _ :: _, [] => false
  | a :: as, b :: bs => a == b && startsSeq as bs

/-- `containsSeq n h`: `n` occurs contiguously inside `h`. -/
def containsSeq : List Char → List Char → Bool
  | n, [] => startsSeq n []
  | n, h@(_ :: t) => startsSeq n h || containsSeq n t

/-- The better.cpp scanner diverges on `input`: a `nextToken`-shaped run of
its token loop yields no result at any fuel, i.e. the C++ `while(!done)`
loop in `Scanner::nextToken` never exits. -/
def betterScanDiverges (input : List Char) : Prop :=
  ∀ fuel, Better.go fuel input.head? .Start input.tail [] [] input.isEmpty = none

/-- The better.cpp driver loop never completes on `input` at any fuel. -/
def betterRunDiverges (input : List Char) : Prop :=
  ∀ n, Better.loop n (Better.initState input) = none

/- ------------------------------------------------------------------ -/
/- Helper lemmas                                                      -/
/- ------------------------------------------------------------------ -/

/-- More fuel never changes a completed driver run of better.cpp. -/
theorem betterLoopMono : ∀ {n : Nat} {ds : Better.DState} {r : Better.RunResult},
    Better.loop n ds = some r → ∀ {m : Nat}, n ≤ m → Better.loop m ds = some r := by
  intro n
  induction n with
  | zero => intro ds r h; simp [Better.loop] at h
  | succ k ih =>
    intro ds r h m hm
    match m, hm with
    | m' + 1, hm =>
      rw [Better.loop] at h ⊢
      cases hstep : Better.step ds with
      | done r' => rw [hstep] at h; exact h
      | stuck => rw [hstep] at h; exact absurd h (by simp)
      | next ds' =>
        rw [hstep] at h
        exact ih h (Nat.le_of_succ_le_succ hm)

/-- `takeWhile (· ≠ newline)` of a newline-free block before a newline. -/
theorem takeWhileNoNl (v rest : List Char) (hv : ∀ c ∈ v, c ≠ '\n') :
    (v ++ '\n' :: rest).takeWhile (fun c => c ≠ '\n') = v := by
  induction v with
  | nil => simp
  | cons a t ih =>
    have ha : a ≠ '\n' := hv a (by simp)
    simp only [List.cons_append, List.takeWhile_cons, decide_eq_true_eq]
    rw [if_pos ha, ih (fun c hc => hv c (by simp [hc]))]

/-- `Scanner::nextLine` of better.cpp on a healthy stream positioned before a
newline-free block `v` returns exactly `v` and consumes its newline. -/
theorem betterNextLineLine (v rest : List Char) (hv : ∀ c ∈ v, c ≠ '\n') :
    Better.nextLine false (v ++ '\n' :: rest) = (v, rest, false) := by
  have hne : (v ++ '\n' :: rest).isEmpty = false := by cases v <;> simp
  rw [Better.nextLine]
  simp only [Bool.false_eq_true, if_false, hne, takeWhileNoNl v rest hv]
  have hdrop : (v ++ '\n' :: rest).drop v.length = '\n' :: rest := List.drop_left v _
  rw [hdrop]

/-- In better.cpp's `State::Other` at end-of-file no loop exit condition
holds (`currChar` is neither space, newline, nor a comment opener, and the
state stays `Other`), so the loop keeps appending `(char)EOF` forever: the
model yields no result at any fuel. -/
theorem goOtherEofNone : ∀ (fuel : Nat) (text err : List Char) (failed : Bool),
    Better.go fuel none .Other [] text err failed = none := by
  intro fuel
  induction fuel with
  | zero => intro text err failed; rfl
  | succ n ih => intro text err failed; exact ih (text ++ [Char.ofNat 255]) err failed

/-- `Scanner::getCh` of ginevra++.cpp leaves `currColumn` at 1: the only
assignment to the field sets it back to 1. -/
theorem getChCol (g : Ginevra.GScan) (h : g.currColumn = 1) :
    (Ginevra.getCh g).currColumn = 1 := by
  simp only [Ginevra.getCh]
  split <;> simp [h]

/-- The token loop of ginevra++.cpp `Scanner::nextToken` preserves
`currColumn = 1`: no branch ever increments it. -/
theorem gGoCol : ∀ (fuel : Nat) (st : Ginevra.GLex) (g : Ginevra.GScan)
    (err text : List Char) (t : Ginevra.GTok) (tx : List Char)
    (g' : Ginevra.GScan) (e' : List Char),
    g.currColumn = 1 →
    Ginevra.gGo fuel st g err text = some (.tok t tx g' e') →
    g'.currColumn = 1 := by
  intro fuel
  induction fuel with
  | zero =>
    intro st g err text t tx g' e' h hgo
    simp [Ginevra.gGo] at hgo
  | succ n ih =>
    intro st g err text t tx g' e' h hgo
    cases st <;> simp only [Ginevra.gGo] at hgo <;>
      first
      | (exact ih _ _ _ _ _ _ _ _ (getChCol _ h) hgo)
      | (cases hcur : g.cur <;> simp only [hcur] at hgo <;>
          first
          | (simp only [Option.some.injEq, Ginevra.GRes.tok.injEq] at hgo ;
             obtain ⟨-, -, hg, -⟩ := hgo ; subst hg ; exact h)
          | (exact ih _ _ _ _ _ _ _ _ h hgo)
          | (exact Ginevra.GRes.noConfusion (Option.some.inj hgo))
          | (split_ifs at hgo <;>
              first
              | (exact ih _ _ _ _ _ _ _ _ h hgo)
              | (exact ih _ _ _ _ _ _ _ _ (getChCol _ h) hgo)
              | (exact ih _ _ _ _ _ _ _ _ (getChCol _ (getChCol _ h)) hgo)
              | (simp only [Option.some.injEq, Ginevra.GRes.tok.injEq] at hgo ;
                 obtain ⟨-, -, hg, -⟩ := hgo ; subst hg ; exact getChCol _ h)
              | (simp only [Option.some.injEq, Ginevra.GRes.tok.injEq] at hgo ;
                 obtain ⟨-, -, hg, -⟩ := hgo ; subst hg ; exact h)))

/- ------------------------------------------------------------------ -/
/- Claims                                                             -/
/- ------------------------------------------------------------------ -/

/-- C1 (counterexample): for the input `#define APPLE 8\nAPPLE + APPLE\n`
neither variant's output contains `8 + 8`.  better.cpp stores the value
with its leading space (`" 8"`) so the output is `" 8 +  8 \n"` (two spaces
before the second 8); ginevra++.cpp emits `"8 +8 \n"` (no space after `+`,
because `Other` tokens are printed without the identifier's trailing-space
rule).  No diagnostic is produced in either case. -/
theorem c1_cex :
    Better.runMain ("#define APPLE 8\nAPPLE + APPLE\n".data) =
      some (.exit 0 (" 8 +  8 \n".data) [] [(("APPLE".data), (" 8".data))])
    ∧ containsSeq ("8 + 8".data) (" 8 +  8 \n".data) = false
    ∧ Ginevra.gRunMain ("#define APPLE 8\nAPPLE + APPLE\n".data) =
      some (.exit 0 ("8 +8 \n".data) [] [(("APPLE".data), ("8".data))])
    ∧ containsSeq ("8 + 8".data) ("8 +8 \n".data) = false := by
  refine ⟨by rfl, by decide, by rfl, by decide⟩

/-- C1 (amended): every `Identifier` token other than the literal `#define`
is emitted by the better.cpp driver as its mapped value when its text is a
key of the symbol table and as its own text otherwise, followed by a single
space; for the input `#define APPLE 8\nAPPLE + APPLE\n` the output is
`" 8 +  8 \n"` (the stored value keeps its leading space, so the
substituted occurrences carry a doubled space, not the exact text `8 + 8`)
and nothing is written to standard error; ginevra++.cpp prints `"8 +8 \n"`. -/
theorem c1_thm :
    (∀ (ds : Better.DState) (t : Better.Tok),
      ds.failed = false →
      Better.nextToken ds.stream = some (.ok t) →
      t.state = .Identifier →
      t.text ≠ ("#define".data) →
      Better.step ds = .next ⟨t.rest, t.failed, ds.table,
        ds.out ++ ((Better.lookupT t.text ds.table).getD t.text) ++ [' '],
        ds.err ++ t.err⟩)
    ∧ Better.runMain ("#define APPLE 8\nAPPLE + APPLE\n".data) =
      some (.exit 0 (" 8 +  8 \n".data) [] [(("APPLE".data), (" 8".data))])
    ∧ Ginevra.gRunMain ("#define APPLE 8\nAPPLE + APPLE\n".data) =
      some (.exit 0 ("8 +8 \n".data) [] [(("APPLE".data), ("8".data))]) := by
  refine ⟨?_, by rfl, by rfl⟩
  intro ds t h0 h1 h2 h3
  simp only [Better.step, h0, Bool.false_eq_true, if_false, h1, h2, if_neg h3]
  simp

/-- C1 (witness): the general clause applied to a concrete mid-run state
with `APPLE` bound to `" 8"`. -/
theorem c1_wit :
    Better.step ⟨("APPLE\n".data), false, [(("APPLE".data), (" 8".data))], [], []⟩ =
      .next ⟨("\n".data), false, [(("APPLE".data), (" 8".data))], (" 8 ".data), []⟩ := by
  have h := c1_thm.1 ⟨("APPLE\n".data), false, [(("APPLE".data), (" 8".data))], [], []⟩
    ⟨.Identifier, ("APPLE".data), ("\n".data), false, []⟩ rfl (by rfl) rfl (by decide)
  simpa using h

/-- C2 (counterexample): for the well-formed directive `#define B a b`,
ginevra++.cpp (`defineSymbol`) installs `"ab"` — the concatenation of the
re-tokenized token texts — which is neither the verbatim line remainder
`" a b"` nor its trimmed form `"a b"`. -/
theorem c2_cex :
    Ginevra.gRunMain ("#define B a b\n".data) =
      some (.exit 0 [] [] [(("B".data), ("ab".data))])
    ∧ ("ab".data) ≠ (" a b".data)
    ∧ ("ab".data) ≠ ("a b".data) := by
  refine ⟨by rfl, by decide, by decide⟩

/-- C2 (amended): in better.cpp the value installed for a well-formed
`#define NAME value` directive is exactly the verbatim, untokenized
remainder of the physical source line after the name (everything up to the
next newline, leading delimiter included); in ginevra++.cpp the value is
instead built by re-tokenizing the rest of the line, substituting
already-bound identifiers, and concatenating the token texts without
spacing (`#define A 1` then `#define B A x` installs `B -> "1x"`). -/
theorem c2_thm :
    (∀ (ds : Better.DState) (t1 t2 : Better.Tok) (v rest : List Char),
      ds.failed = false →
      Better.nextToken ds.stream = some (.ok t1) →
      t1.text = ("#define".data) →
      Better.nextToken t1.rest = some (.ok t2) →
      t2.state = .Identifier →
      t2.failed = false →
      t2.rest = v ++ '\n' :: rest →
      (∀ c ∈ v, c ≠ '\n') →
      Better.step ds = .next ⟨rest, false, Better.insertT t2.text v ds.table,
        ds.out ++ (if (Better.lookupT t2.text ds.table).isSome then
          ("\nWarning: symbol ".data) ++ t2.text ++ (" redefined\n".data) else []),
        (ds.err ++ t1.err) ++ t2.err⟩)
    ∧ Ginevra.gRunMain ("#define A 1\n#define B A x\nB\n".data) =
      some (.exit 0 ("1x \n".data) []
        [(("A".data), ("1".data)), (("B".data), ("1x".data))]) := by
  refine ⟨?_, by rfl⟩
  intro ds t1 t2 v rest h0 h1 h2 h4 h5 h6 h7 h8
  simp only [Better.step, h0, Bool.false_eq_true, if_false, h1, if_pos h2, h4,
    h6, h7, betterNextLineLine v rest h8, h5]
  simp

/-- C2 (witness): the better.cpp clause applied to the concrete input
`#define X 1\nX\n`: the installed value is the verbatim remainder `" 1"`. -/
theorem c2_wit :
    Better.step (Better.initState ("#define X 1\nX\n".data)) =
      .next ⟨("X\n".data), false, [(("X".data), (" 1".data))], [], []⟩ := by
  have h := c2_thm.1 (Better.initState ("#define X 1\nX\n".data))
    ⟨.Identifier, ("#define".data), (" X 1\nX\n".data), false, []⟩
    ⟨.Identifier, ("X".data), (" 1\nX\n".data), false, []⟩
    (" 1".data) ("X\n".data)
    rfl (by rfl) rfl (by rfl) rfl rfl (by decide) (by decide)
  simpa using h

/-- C3: on the input `'it\'s'` the better.cpp scanner does return a single
`String` token (never two), but line 119 (`tokenText += currChar + m_file.get();`)
appends the single character with code 131 = `'\\' + '\''` instead of the
quote, so the token text is `'it` ++ char 131 ++ `s'`, not `'it's'`.
ginevra++.cpp resolves the escape correctly to `'it's'`. -/
theorem c3_thm :
    Better.nextToken ("'it\\'s'".data) =
      some (.ok ⟨.Str, ("'it".data) ++ [Char.ofNat 131] ++ ("s'".data), [], false, []⟩)
    ∧ (("'it".data) ++ [Char.ofNat 131] ++ ("s'".data)) ≠ ("'it's'".data)
    ∧ Ginevra.gNextToken (Ginevra.getCh ⟨("'it\\'s'".data), none, 1, 1⟩) =
      some (.tok .str ("'it's'".data) ⟨[], none, 1, 1⟩ []) := by
  refine ⟨by rfl, by decide, by rfl⟩

/-- C4: better.cpp ends a comment at any lone `*` (line 161 tests
`currChar == '*' || m_file.peek() == '/'`, with `||`), so for the input
`/* x * y */z\n` the text after the lone `*` leaks: the output is
`y */z\n`, i.e. characters strictly inside the comment body appear in
tokens.  ginevra++.cpp (`&&`) consumes the whole comment and prints
`z \n`. -/
theorem c4_thm :
    Better.runMain ("/* x * y */z\n".data) =
      some (.exit 0 ("y */z\n".data) [] [])
    ∧ Ginevra.gRunMain ("/* x * y */z\n".data) =
      some (.exit 0 ("z \n".data) [] []) := by
  refine ⟨by rfl, by rfl⟩

/-- C5: for `/* #define X 1 */X` the whole comment is consumed without
touching the symbol table — the final table is empty in both variants —
and the trailing identifier `X` is emitted literally (with the driver's
single separating space). -/
theorem c5_thm :
    Better.runMain ("/* #define X 1 */X".data) =
      some (.exit 0 ("X ".data) [] [])
    ∧ Ginevra.gRunMain ("/* #define X 1 */X".data) =
      some (.exit 0 ("X ".data) [] []) := by
  refine ⟨by rfl, by rfl⟩

/-- C6 (counterexample): for `#define X 1\n#define X 2\nX\n` better.cpp
writes nothing at all to standard error — the redefinition warning goes to
standard output (line 224 uses `std::cout`) — and ginevra++.cpp's stderr
message `error: multiple symbol definitions` does not mention `X`; so in
neither variant is a warning mentioning `X` emitted on standard error. -/
theorem c6_cex :
    Better.runMain ("#define X 1\n#define X 2\nX\n".data) =
      some (.exit 0 ("\nWarning: symbol X redefined\n 2 \n".data) []
        [(("X".data), (" 2".data))])
    ∧ Ginevra.gRunMain ("#define X 1\n#define X 2\nX\n".data) =
      some (.exit 0 ("2 \n".data) ("error: multiple symbol definitions\n".data)
        [(("X".data), ("2".data))])
    ∧ containsSeq ("X".data) ("error: multiple symbol definitions\n".data) = false := by
  refine ⟨by rfl, by rfl, by decide⟩

/-- C6 (amended): for `#define X 1\n#define X 2\nX\n` better.cpp emits the
warning `Warning: symbol X redefined` (mentioning `X`) on standard OUTPUT,
leaves standard error empty, overwrites the binding, and substitutes the
new value `" 2"` (not `" 1"`) for the later `X`; ginevra++.cpp emits
`error: multiple symbol definitions` (not mentioning `X`) on standard
error and substitutes `"2"`. -/
theorem c6_thm :
    Better.runMain ("#define X 1\n#define X 2\nX\n".data) =
      some (.exit 0 ("\nWarning: symbol X redefined\n 2 \n".data) []
        [(("X".data), (" 2".data))])
    ∧ containsSeq ("Warning: symbol X redefined".data)
        ("\nWarning: symbol X redefined\n 2 \n".data) = true
    ∧ containsSeq (" 2 ".data) ("\nWarning: symbol X redefined\n 2 \n".data) = true
    ∧ containsSeq (" 1 ".data) ("\nWarning: symbol X redefined\n 2 \n".data) = false
    ∧ Ginevra.gRunMain ("#define X 1\n#define X 2\nX\n".data) =
      some (.exit 0 ("2 \n".data) ("error: multiple symbol definitions\n".data)
        [(("X".data), ("2".data))]) := by
  refine ⟨by rfl, by decide, by decide, by decide, by rfl⟩

/-- C7 (counterexample): the input `+'abc` ends in an unterminated quote,
but in better.cpp the quote is absorbed into the running `Other` token
(`Other` only ends at space or newline), so at end-of-file the scanner is
in `State::Other` with `currChar == EOF`, where no exit condition holds:
the `while(!done)` loop runs forever appending `(char)EOF` to `tokenText`.
No error is reported and the program never terminates — the scanner yields
no result and the driver loop never completes, at any fuel. -/
theorem c7_cex :
    betterScanDiverges ("+'abc".data) ∧ betterRunDiverges ("+'abc".data) := by
  constructor
  · intro fuel
    match fuel with
    | 0 => rfl
    | 1 => rfl
    | 2 => rfl
    | 3 => rfl
    | 4 => rfl
    | (n+5) =>
      have h : Better.go (n+5) (("+'abc".data).head?) .Start (("+'abc".data).tail)
          [] [] (("+'abc".data).isEmpty) =
          Better.go n none .Other [] ("+'abc".data) [] true := rfl
      rw [h]
      exact goOtherEofNone n _ _ _
  · intro n
    match n with
    | 0 => rfl
    | m+1 =>
      have hstep : Better.step (Better.initState ("+'abc".data)) = .stuck := by rfl
      simp [Better.loop, hstep]

/-- C7 (amended): when the unterminated quote begins a token — as in the
claim's example `'abc` followed by end-of-file — better.cpp reports
`Error: Unexpected end of file` and `Error: bad token: 'abc` on standard
error and the driver loop completes with exit code 0 under any sufficient
fuel (no infinite loop, no crash); ginevra++.cpp reports
`malformed token 'abc` and terminates with exit code 0 both there and when
the quote is preceded by other punctuation (`+'abc`), the case where
better.cpp instead loops forever (see the counterexample). -/
theorem c7_thm :
    (∀ n, 2 ≤ n → Better.loop n (Better.initState ("'abc".data)) =
      some (.exit 0 []
        ("\nError: Unexpected end of file\nError: bad token: 'abc\n".data) []))
    ∧ Ginevra.gRunMain ("'abc".data) =
      some (.exit 0 [] ("malformed token 'abc".data) [])
    ∧ Ginevra.gRunMain ("+'abc".data) =
      some (.exit 0 ("+".data) ("malformed token 'abc".data) []) := by
  refine ⟨?_, by rfl, by rfl⟩
  intro n hn
  exact betterLoopMono (by rfl) hn

/-- C7 (witness): the loop completes at the minimal fuel 2. -/
theorem c7_wit :
    Better.loop 2 (Better.initState ("'abc".data)) =
      some (.exit 0 []
        ("\nError: Unexpected end of file\nError: bad token: 'abc\n".data) []) :=
  c7_thm.1 2 (by decide)

/-- C8: the extension check passes `.h`/`.cpp` suffixes and exits with
code 1 for other extensions only when the path has length ≥ 4 (or < 2);
for paths of length 2 or 3 not ending in `.h` (such as `a.c`, `ab`, or
`A.H` — the check is case-sensitive) `path.substr(path.size()-4)`
underflows in `size_t` and throws an uncaught `std::out_of_range` instead
of exiting with code 1. -/
theorem c8_thm :
    Better.checkExtension ("a.c".data) = .oobThrow
    ∧ Better.checkExtension ("ab".data) = .oobThrow
    ∧ Better.checkExtension ("A.H".data) = .oobThrow
    ∧ Better.checkExtension ("a.h".data) = .pass
    ∧ Better.checkExtension ("x.cpp".data) = .pass
    ∧ Better.checkExtension (".h".data) = .pass
    ∧ Better.checkExtension ("a.txt".data) = .invalidExit
    ∧ Better.checkExtension ("X.CPP".data) = .invalidExit := by
  refine ⟨by decide, by decide, by decide, by decide, by decide, by decide,
    by decide, by decide⟩

/-- C9: on an empty input file both variants' Scanner constructors hit the
`peek() == EOF` branch and exit with code 1 silently: no stdout, no
stderr, empty table. -/
theorem c9_thm :
    Better.runMain [] = some (.exit 1 [] [] [])
    ∧ Ginevra.gRunMain [] = some (.exit 1 [] [] []) := by
  refine ⟨by rfl, by rfl⟩

/-- C10: in ginevra++.cpp `currColumn` starts at 1 and every token returned
by the scanner leaves it at 1 (the only assignment, in `getCh`, resets it
to 1; nothing increments it), so the driver's `currColumn == 1` test
always holds and a `#` token in the middle of a line triggers directive
handling: `x #define Y 2\nY\n` installs `Y -> "2"` and substitutes it. -/
theorem c10_thm :
    (∀ (fuel : Nat) (st : Ginevra.GLex) (g : Ginevra.GScan)
      (err text : List Char) (t : Ginevra.GTok) (tx : List Char)
      (g' : Ginevra.GScan) (e' : List Char),
      g.currColumn = 1 →
      Ginevra.gGo fuel st g err text = some (.tok t tx g' e') →
      g'.currColumn = 1)
    ∧ Ginevra.gRunMain ("x #define Y 2\nY\n".data) =
      some (.exit 0 ("x 2 \n".data) [] [(("Y".data), ("2".data))]) :=
  ⟨gGoCol, by rfl⟩

/-- C10 (witness): the invariant clause applied to a concrete scan of `ab`. -/
theorem c10_wit :
    Ginevra.gGo 10 .Start (Ginevra.getCh ⟨("ab".data), none, 1, 1⟩) [] [] =
      some (.tok .ident ("ab".data) ⟨[], none, 1, 1⟩ [])
    ∧ (⟨[], none, 1, 1⟩ : Ginevra.GScan).currColumn = 1 :=
  ⟨by rfl, c10_thm.1 10 .Start (Ginevra.getCh ⟨("ab".data), none, 1, 1⟩) [] []
    .ident ("ab".data) ⟨[], none, 1, 1⟩ [] (by rfl) (by rfl)⟩
